import Mathlib

/-!
# Verification of the tcreader timecode tool

Shallow embedding of `src/tcreader.py` (the timecode codec, the four
metadata extractors and the report builder) together with proofs of the
specification's claims about it.

Modelling conventions:
* Python floats are embedded as rationals (`ℚ`); Python's `round` is
  round-half-to-even, embedded as `pyRound` below.
* Python `//` and `%` on integers are floor division / floor modulus,
  embedded as `Int.fdiv` / `Int.fmod` (which have exactly those
  semantics), guarded by an explicit `ZeroDivisionError` case because
  Python raises when the divisor is zero.
* Fallible Python code (dict indexing, `int()` / `float()` conversion,
  division) is embedded in `Except PyExn`.
* Probe metadata (nested dicts/lists/strings as produced by the external
  probing collaborator) is embedded as the inductive `PyVal`.
-/

/-- The exceptions the modelled fragment of the source can raise. -/
inductive PyExn where
  | typeError
  | keyError
  | valueError
  | zeroDivisionError
  deriving DecidableEq

/-- The decimal digit characters. -/
def digitChar : ℕ → Char
  | 0 => '0' | 1 => '1' | 2 => '2' | 3 => '3' | 4 => '4'
  | 5 => '5' | 6 => '6' | 7 => '7' | 8 => '8' | 9 => '9'
  | _ => '*'

/-- Numeric value of a decimal digit character (as used when parsing the
regex groups, Python's `int` on a one-digit string). -/
def digitVal (c : Char) : ℕ := c.toNat - 48

/-- Fuel-driven accumulator loop producing the decimal digits of a natural
number, most significant first.  Models Python's decimal `repr` of a
nonnegative integer. -/
def natDigitsGo : ℕ → ℕ → List Char → List Char
  | 0, _, acc => acc
  | fuel + 1, n, acc =>
    if n < 10 then digitChar n :: acc
    else natDigitsGo fuel (n / 10) (digitChar (n % 10) :: acc)

/-- Decimal digits of a natural number, most significant first. -/
def natDigits (n : ℕ) : List Char := natDigitsGo (n + 1) n []

/-- Models Python's `str` on an `int`. -/
def intRepr (n : ℤ) : String :=
  if n < 0 then "-" ++ String.mk (natDigits n.natAbs) else String.mk (natDigits n.toNat)

/-- Models Python's format spec `f"{n:02}"`: decimal representation,
zero-padded on the left to at least two characters. -/
def pad2 (n : ℤ) : String :=
  if (intRepr n).length < 2 then "0" ++ intRepr n else intRepr n

/-- Python's built-in `round` to an integer: round half to even. -/
def pyRound (q : ℚ) : ℤ :=
  if Int.fract q < 1 / 2 then ⌊q⌋
  else if 1 / 2 < Int.fract q then ⌊q⌋ + 1
  else if ⌊q⌋ % 2 = 0 then ⌊q⌋ else ⌊q⌋ + 1

/-- Rounding to the nearest integer with ties away from zero, the rounding
mode the specification prescribes in §4.1 (claim C3). -/
def roundTiesAway (q : ℚ) : ℤ :=
  if Int.fract q < 1 / 2 then ⌊q⌋
  else if 1 / 2 < Int.fract q then ⌊q⌋ + 1
  else if 0 ≤ q then ⌊q⌋ + 1 else ⌊q⌋

/-- Embedding of `seconds_to_timecode(seconds, frame_rate)` (tcreader.py
lines 6–16).  Python raises `ZeroDivisionError` on `% round(frame_rate)`
when `round(frame_rate) = 0`, hence the error case. -/
def seconds_to_timecode (seconds : ℚ) (frame_rate : ℚ) : Except PyExn String :=
  let total_frames := pyRound (seconds * frame_rate)
  let r := pyRound frame_rate
  if r = 0 then .error .zeroDivisionError
  else
    let frames := total_frames.fmod r
    let total_seconds := total_frames.fdiv r
    let hours := total_seconds.fdiv 3600
    let minutes := (total_seconds.fmod 3600).fdiv 60
    let secs := total_seconds.fmod 60
    .ok (pad2 hours ++ ":" ++ pad2 minutes ++ ":" ++ pad2 secs ++ ":" ++ pad2 frames)

/-- Embedding of the leading regex match
`re.match(r'(\d{2}):(\d{2}):(\d{2}):(\d{2})', timecode)` from
`timecode_to_seconds`: the first eleven characters must be two digits,
colon, two digits, colon, two digits, colon, two digits; anything may
follow.  (The source's `\d` also matches non-ASCII Unicode digits, which
the metadata in scope never contains; here digits are ASCII.)
Returns the four parsed groups `(hours, minutes, seconds, frames)`. -/
def tcMatch : List Char → Option (ℕ × ℕ × ℕ × ℕ)
  | c1 :: c2 :: s1 :: c3 :: c4 :: s2 :: c5 :: c6 :: s3 :: c7 :: c8 :: _ =>
    if c1.isDigit && c2.isDigit && s1 == ':' && c3.isDigit && c4.isDigit && s2 == ':'
        && c5.isDigit && c6.isDigit && s3 == ':' && c7.isDigit && c8.isDigit then
      some (10 * digitVal c1 + digitVal c2, 10 * digitVal c3 + digitVal c4,
            10 * digitVal c5 + digitVal c6, 10 * digitVal c7 + digitVal c8)
    else none
  | _ => none

/-- Embedding of `timecode_to_seconds(timecode, frame_rate)` (tcreader.py
lines 52–59).  On no match the source returns `0`; on a match it returns
`hours*3600 + minutes*60 + seconds + frames/frame_rate`, raising
`ZeroDivisionError` when `frame_rate` is zero (Python float division). -/
def timecode_to_seconds (timecode : String) (frame_rate : ℚ) : Except PyExn ℚ :=
  match tcMatch timecode.data with
  | none => .ok 0
  | some (hours, minutes, seconds, frames) =>
    if frame_rate = 0 then .error .zeroDivisionError
    else .ok ((hours : ℚ) * 3600 + (minutes : ℚ) * 60 + (seconds : ℚ) + (frames : ℚ) / frame_rate)

/-- Embedding of `add_timecodes(tc1, tc2)` (tcreader.py lines 61–67):
both timecodes are converted at the fixed frame rate 24, summed, and
converted back at frame rate 24. -/
def add_timecodes (tc1 tc2 : String) : Except PyExn String :=
  match timecode_to_seconds tc1 24 with
  | .error e => .error e
  | .ok seconds1 =>
    match timecode_to_seconds tc2 24 with
    | .error e => .error e
    | .ok seconds2 => seconds_to_timecode (seconds1 + seconds2) 24

/-! ## Probe metadata values

`ffmpeg.probe` returns nested dicts/lists whose leaves are strings or
numbers.  `PyVal` embeds that universe.  Only dicts support key lookup /
membership; Python's `in` on strings and lists (substring / element
membership) never occurs on the well-shaped metadata the claims quantify
over and is embedded as a `TypeError` here. -/
inductive PyVal where
  | str : String → PyVal
  | intV : ℤ → PyVal
  | dict : List (String × PyVal) → PyVal
  | list : List PyVal → PyVal

/-- First binding of a key in a dict's association list (Python dict keys
are unique, so first-match lookup is dict lookup). -/
def dlookup : List (String × PyVal) → String → Option PyVal
  | [], _ => none
  | (k0, v) :: rest, k => if k0 == k then some v else dlookup rest k

/-- Python `container[key]`: key lookup raising `KeyError` when absent,
`TypeError` on a non-dict. -/
def pyIndex (v : PyVal) (k : String) : Except PyExn PyVal :=
  match v with
  | .dict d =>
    match dlookup d k with
    | some x => .ok x
    | none => .error .keyError
  | _ => .error .typeError

/-- Python `metadata.get(key, default)` (only dicts have `.get`). -/
def pyGetD (v : PyVal) (k : String) (dflt : PyVal) : Except PyExn PyVal :=
  match v with
  | .dict d => .ok ((dlookup d k).getD dflt)
  | _ => .error .typeError

/-- Python `key in container` restricted to dicts (see `PyVal`). -/
def pyIn (v : PyVal) (k : String) : Except PyExn Bool :=
  match v with
  | .dict d => .ok (dlookup d k).isSome
  | _ => .error .typeError

/-- Split a character list at every occurrence of `sep` (Python
`str.split(sep)`): always at least one group, empty groups kept. -/
def splitOnChar (sep : Char) : List Char → List (List Char)
  | [] => [[]]
  | c :: rest =>
    match splitOnChar sep rest with
    | [] => [[]]
    | grp :: grps => if c == sep then [] :: grp :: grps else (c :: grp) :: grps

/-- Value of a nonempty all-digit character list. -/
def digitsValGo : List Char → ℕ → Option ℕ
  | [], acc => some acc
  | c :: rest, acc => if c.isDigit then digitsValGo rest (10 * acc + digitVal c) else none

/-- Value of a nonempty all-digit character list, `none` otherwise. -/
def digitsVal : List Char → Option ℕ
  | [] => none
  | l => digitsValGo l 0

/-- Python `int(string)`: an optional sign followed by digits.  (Python
additionally strips whitespace and allows `_` digit separators and
non-ASCII digits; none of those occur in the metadata in scope.) -/
def pyIntOfChars : List Char → Option ℤ
  | '-' :: rest => (digitsVal rest).map (fun n => -(n : ℤ))
  | '+' :: rest => (digitsVal rest).map (fun n => (n : ℤ))
  | l => (digitsVal l).map (fun n => (n : ℤ))

/-- Python `int(value)` on a metadata value: parses strings, passes
integers through, raises `TypeError` on containers. -/
def pyInt (v : PyVal) : Except PyExn ℤ :=
  match v with
  | .intV n => .ok n
  | .str s =>
    match pyIntOfChars s.data with
    | some n => .ok n
    | none => .error .valueError
  | _ => .error .typeError

/-- Digits-with-optional-fraction part of `float` parsing: `"12"`,
`"12.5"`, `"12."` and `".5"` are accepted, as in Python. -/
def posFloatOfChars (l : List Char) : Option ℚ :=
  match splitOnChar '.' l with
  | [a] => (digitsVal a).map (fun n => (n : ℚ))
  | [a, b] =>
    if a.isEmpty && b.isEmpty then none
    else
      match (if a.isEmpty then some 0 else digitsVal a),
            (if b.isEmpty then some 0 else digitsVal b) with
      | some i, some f => some ((i : ℚ) + (f : ℚ) / ((10 : ℚ) ^ b.length))
      | _, _ => none
  | _ => none

/-- Python `float(string)`: optional sign, digits, optional decimal point.
(Exponents, `inf` and `nan` never occur in the metadata in scope.) -/
def pyFloatOfChars : List Char → Option ℚ
  | '-' :: rest => (posFloatOfChars rest).map (fun q => -q)
  | '+' :: rest => posFloatOfChars rest
  | l => posFloatOfChars l

/-- Python `float(value)` on a metadata value. -/
def pyFloat (v : PyVal) : Except PyExn ℚ :=
  match v with
  | .intV n => .ok (n : ℚ)
  | .str s =>
    match pyFloatOfChars s.data with
    | some q => .ok q
    | none => .error .valueError
  | _ => .error .typeError

/-! ## Metadata extractors (tcreader.py lines 18–50) -/

/-- `metadata.get('streams', [])` followed by iteration: the stream list,
or `TypeError` when `streams` is not a list (iterating non-list containers
is outside the modelled fragment, see `PyVal`). -/
def streamsOf (metadata : PyVal) : Except PyExn (List PyVal) :=
  match pyGetD metadata "streams" (.list []) with
  | .error e => .error e
  | .ok (.list streams) => .ok streams
  | .ok _ => .error .typeError

/-- The loop body of `get_sample_rate`: first stream with a `sample_rate`
field wins; default 48000. -/
def sampleRateLoop : List PyVal → Except PyExn ℤ
  | [] => .ok 48000
  | stream :: rest =>
    match pyIn stream "sample_rate" with
    | .error e => .error e
    | .ok true =>
      match pyIndex stream "sample_rate" with
      | .error e => .error e
      | .ok v => pyInt v
    | .ok false => sampleRateLoop rest

/-- Embedding of `get_sample_rate(metadata)` (tcreader.py lines 18–23). -/
def get_sample_rate (metadata : PyVal) : Except PyExn ℤ :=
  match streamsOf metadata with
  | .error e => .error e
  | .ok streams => sampleRateLoop streams

/-- Models the compound test-and-index
`'tags' in v and key in v['tags']` / `v['tags'][key]` used by
`get_time_reference` and `get_timecode`: `some value` when both keys are
present, `none` when either is absent. -/
def tagLookup (v : PyVal) (k : String) : Except PyExn (Option PyVal) :=
  match pyIn v "tags" with
  | .error e => .error e
  | .ok false => .ok none
  | .ok true =>
    match pyIndex v "tags" with
    | .error e => .error e
    | .ok tags =>
      match pyIn tags k with
      | .error e => .error e
      | .ok false => .ok none
      | .ok true =>
        match pyIndex tags k with
        | .error e => .error e
        | .ok x => .ok (some x)

/-- The stream loop of `get_time_reference`: first stream with a
`tags.time_reference` wins; default 0. -/
def timeRefLoop : List PyVal → Except PyExn ℤ
  | [] => .ok 0
  | stream :: rest =>
    match tagLookup stream "time_reference" with
    | .error e => .error e
    | .ok (some v) => pyInt v
    | .ok none => timeRefLoop rest

/-- Embedding of `get_time_reference(metadata)` (tcreader.py lines 25–32):
`format.tags.time_reference` first, then the stream tags, default 0. -/
def get_time_reference (metadata : PyVal) : Except PyExn ℤ :=
  match pyIn metadata "format" with
  | .error e => .error e
  | .ok true =>
    match pyIndex metadata "format" with
    | .error e => .error e
    | .ok fmt =>
      match tagLookup fmt "time_reference" with
      | .error e => .error e
      | .ok (some v) => pyInt v
      | .ok none =>
        match streamsOf metadata with
        | .error e => .error e
        | .ok streams => timeRefLoop streams
  | .ok false =>
    match streamsOf metadata with
    | .error e => .error e
    | .ok streams => timeRefLoop streams

/-- `numerator, denominator = map(int, r_frame_rate_str.split('/'))`:
exactly two `/`-separated integer parts, else `ValueError`. -/
def parseRatio (s : String) : Option (ℤ × ℤ) :=
  match splitOnChar '/' s.data with
  | [a, b] =>
    match pyIntOfChars a, pyIntOfChars b with
    | some n, some d => some (n, d)
    | _, _ => none
  | _ => none

/-- The stream loop of `get_frame_rate`: first stream with an
`r_frame_rate` field wins, parsed as `"N/D"` and divided (raising
`ZeroDivisionError` for a zero denominator, `ValueError` for a malformed
string, `TypeError` when the value is not a string); default 23.976. -/
def frameRateLoop : List PyVal → Except PyExn ℚ
  | [] => .ok (2997 / 125)
  | stream :: rest =>
    match pyIn stream "r_frame_rate" with
    | .error e => .error e
    | .ok false => frameRateLoop rest
    | .ok true =>
      match pyIndex stream "r_frame_rate" with
      | .error e => .error e
      | .ok (.str s) =>
        match parseRatio s with
        | some (n, d) =>
          if d = 0 then .error .zeroDivisionError else .ok ((n : ℚ) / (d : ℚ))
        | none => .error .valueError
      | .ok _ => .error .typeError

/-- Embedding of `get_frame_rate(metadata)` (tcreader.py lines 34–41). -/
def get_frame_rate (metadata : PyVal) : Except PyExn ℚ :=
  match streamsOf metadata with
  | .error e => .error e
  | .ok streams => frameRateLoop streams

/-- The stream loop of `get_timecode`: first stream with a `tags.timecode`
wins; default `"00:00:00:00"`.  The source returns the raw tag value,
whatever its type. -/
def timecodeLoop : List PyVal → Except PyExn PyVal
  | [] => .ok (.str "00:00:00:00")
  | stream :: rest =>
    match tagLookup stream "timecode" with
    | .error e => .error e
    | .ok (some v) => .ok v
    | .ok none => timecodeLoop rest

/-- Embedding of `get_timecode(metadata)` (tcreader.py lines 43–50):
`format.tags.timecode` first, then the stream tags, default
`"00:00:00:00"`. -/
def get_timecode (metadata : PyVal) : Except PyExn PyVal :=
  match pyIn metadata "format" with
  | .error e => .error e
  | .ok true =>
    match pyIndex metadata "format" with
    | .error e => .error e
    | .ok fmt =>
      match tagLookup fmt "timecode" with
      | .error e => .error e
      | .ok (some v) => .ok v
      | .ok none =>
        match streamsOf metadata with
        | .error e => .error e
        | .ok streams => timecodeLoop streams
  | .ok false =>
    match streamsOf metadata with
    | .error e => .error e
    | .ok streams => timecodeLoop streams

/-! ## Report builder (tcreader.py lines 69–96)

The probing collaborator (`ffmpeg.probe` on a staged temporary file) is
external per spec §6: the builder is modelled on `(name, metadata)` pairs,
with the probe result supplied as a `PyVal`. -/

/-- The audio branch of `process_metadata` for one file (tcreader.py lines
77–85): `start_seconds = time_reference / sample_rate` (raising
`ZeroDivisionError` when the sample rate is zero), converted at the
hardcoded frame rate 23.976. -/
def process_audio (name : String) (metadata : PyVal) : Except PyExn String :=
  match get_sample_rate metadata with
  | .error e => .error e
  | .ok sample_rate =>
    match get_time_reference metadata with
    | .error e => .error e
    | .ok time_reference =>
      if sample_rate = 0 then .error .zeroDivisionError
      else
        match seconds_to_timecode ((time_reference : ℚ) / (sample_rate : ℚ)) (2997 / 125) with
        | .error e => .error e
        | .ok start_timecode =>
          .ok ("Audio Results (" ++ name ++ "):\n" ++ "Time Reference: "
            ++ intRepr time_reference ++ "\n" ++ "Sample Rate: " ++ intRepr sample_rate
            ++ "\n" ++ "Start Timecode: " ++ start_timecode ++ "\n\n")

/-- The video branch of `process_metadata` for one file (tcreader.py lines
86–95): `duration = float(metadata['format']['duration'])` with no
default, then `end = add_timecodes(start, duration_timecode)`.  A
non-string start timecode reaches `re.match` inside `add_timecodes` and
raises `TypeError` there. -/
def process_video (name : String) (metadata : PyVal) : Except PyExn String :=
  match get_frame_rate metadata with
  | .error e => .error e
  | .ok frame_rate =>
    match get_timecode metadata with
    | .error e => .error e
    | .ok start_tc_val =>
      match pyIndex metadata "format" with
      | .error e => .error e
      | .ok fmt =>
        match pyIndex fmt "duration" with
        | .error e => .error e
        | .ok dval =>
          match pyFloat dval with
          | .error e => .error e
          | .ok duration =>
            match seconds_to_timecode duration frame_rate with
            | .error e => .error e
            | .ok duration_timecode =>
              match start_tc_val with
              | .str start_timecode =>
                match add_timecodes start_timecode duration_timecode with
                | .error e => .error e
                | .ok end_timecode =>
                  .ok ("Video Results (" ++ name ++ "):\n" ++ "Start Timecode: "
                    ++ start_timecode ++ "\n" ++ "End Timecode: " ++ end_timecode ++ "\n"
                    ++ "Duration in Timecode Format: " ++ duration_timecode ++ "\n\n")
              | _ => .error .typeError

/-- Embedding of `process_metadata(file_paths, file_type)` (tcreader.py
lines 69–96) on the supplied `(name, metadata)` pairs: blocks are
accumulated in input order; a file type other than `'audio'` and
`'video'` matches no branch and contributes no text. -/
def process_metadata : List (String × PyVal) → String → Except PyExn String
  | [], _ => .ok ""
  | (name, metadata) :: rest, file_type =>
    let block :=
      if file_type == "audio" then process_audio name metadata
      else if file_type == "video" then process_video name metadata
      else .ok ""
    match block with
    | .error e => .error e
    | .ok text =>
      match process_metadata rest file_type with
      | .error e => .error e
      | .ok restText => .ok (text ++ restText)

/-! ## Spec-side definitions

Claim C3 is a refinement claim: these two definitions are written from the
spec's words (§4.1), to be compared with `seconds_to_timecode` above,
which is translated from the source. -/

/-- Spec §4.1's algorithm with the rounding mode the claim states, ties
away from zero: `totalFrames = round(seconds*frameRate)`,
`frames = totalFrames mod round(frameRate)`,
`totalSeconds = totalFrames div round(frameRate)`,
`hours = totalSeconds div 3600`, `minutes = (totalSeconds mod 3600) div
60`, `secs = totalSeconds mod 60`, zero-padded two-digit fields (mod/div
by zero mirrored as the error case, as in the code). -/
def secondsToTimecodeTiesAway (seconds : ℚ) (frameRate : ℚ) : Except PyExn String :=
  let totalFrames := roundTiesAway (seconds * frameRate)
  let fps := roundTiesAway frameRate
  if fps = 0 then .error .zeroDivisionError
  else
    let totalSeconds := totalFrames.fdiv fps
    .ok (pad2 (totalSeconds.fdiv 3600) ++ ":" ++ pad2 ((totalSeconds.fmod 3600).fdiv 60)
      ++ ":" ++ pad2 (totalSeconds.fmod 60) ++ ":" ++ pad2 (totalFrames.fmod fps))

/-- Spec §4.1's algorithm as in `secondsToTimecodeTiesAway` but with the
rounding mode corrected to Python's round-half-to-even — the nearby
statement that does hold of the source (amended claim C3). -/
def secondsToTimecodeSpecRHE (seconds : ℚ) (frameRate : ℚ) : Except PyExn String :=
  let totalFrames := pyRound (seconds * frameRate)
  let fps := pyRound frameRate
  if fps = 0 then .error .zeroDivisionError
  else
    let totalSeconds := totalFrames.fdiv fps
    .ok (pad2 (totalSeconds.fdiv 3600) ++ ":" ++ pad2 ((totalSeconds.fmod 3600).fdiv 60)
      ++ ":" ++ pad2 (totalSeconds.fmod 60) ++ ":" ++ pad2 (totalFrames.fmod fps))

/-! ## Shape predicates

The classes of metadata over which the safety claims quantify: dict-shaped
at every level the extractors inspect, with any subset of the keys
missing.  They are stated with integer-only side conditions so that they
evaluate by `decide`. -/

/-- A value `int()` accepts: an integer, or a string parsing as one. -/
def goodIntVal : PyVal → Bool
  | .intV _ => true
  | .str s => (pyIntOfChars s.data).isSome
  | _ => false

/-- A value `float()` accepts. -/
def goodFloatVal : PyVal → Bool
  | .intV _ => true
  | .str s => (pyFloatOfChars s.data).isSome
  | _ => false

/-- An `r_frame_rate` value `get_frame_rate` parses without raising:
a string of shape `"N/D"` with `D ≠ 0`. -/
def goodRatioVal : PyVal → Bool
  | .str s =>
    match parseRatio s with
    | some (_, d) => d ≠ 0
    | none => false
  | _ => false

/-- An `r_frame_rate` value that moreover yields a frame rate usable by
`seconds_to_timecode`: positive denominator and `N/D > 1/2`, so that
`round(N/D) ≥ 1` and the `% round(frame_rate)` never divides by zero. -/
def usableRatioVal : PyVal → Bool
  | .str s =>
    match parseRatio s with
    | some (n, d) => 0 < d && d < 2 * n
    | none => false
  | _ => false

/-- A `tags` dict whose `time_reference`, when present, is `int()`-able. -/
def goodTags (t : List (String × PyVal)) : Bool :=
  match dlookup t "time_reference" with
  | none => true
  | some v => goodIntVal v

/-- A stream dict all four extractors traverse without raising. -/
def goodStream : PyVal → Bool
  | .dict d =>
    (match dlookup d "sample_rate" with
     | none => true
     | some v => goodIntVal v) &&
    (match dlookup d "r_frame_rate" with
     | none => true
     | some v => goodRatioVal v) &&
    (match dlookup d "tags" with
     | none => true
     | some (.dict t) => goodTags t
     | some _ => false)
  | _ => false

/-- A `format` value the extractors traverse without raising. -/
def goodFormat : PyVal → Bool
  | .dict f =>
    (match dlookup f "tags" with
     | none => true
     | some (.dict t) => goodTags t
     | some _ => false)
  | _ => false

/-- Metadata with any subset of keys missing but dict-shaped where present
and with `int()`-able / parseable leaf values: the class over which the
extractors are total (claim C7). -/
def goodMeta : PyVal → Bool
  | .dict d =>
    (match dlookup d "streams" with
     | none => true
     | some (.list ss) => ss.all goodStream
     | some _ => false) &&
    (match dlookup d "format" with
     | none => true
     | some f => goodFormat f)
  | _ => false

/-- A `tags` dict whose `timecode`, when present, is a string (a
non-string timecode would reach `re.match` and raise `TypeError`). -/
def videoTags (t : List (String × PyVal)) : Bool :=
  match dlookup t "timecode" with
  | none => true
  | some (.str _) => true
  | some _ => false

/-- A stream dict the video branch traverses without raising. -/
def goodVideoStream : PyVal → Bool
  | .dict d =>
    (match dlookup d "r_frame_rate" with
     | none => true
     | some v => usableRatioVal v) &&
    (match dlookup d "tags" with
     | none => true
     | some (.dict t) => videoTags t
     | some _ => false)
  | _ => false

/-- Metadata on which the video branch succeeds end to end: well-shaped
streams with usable frame rates and string timecodes, and a `format` dict
carrying a `float()`-able `duration` (claim C6's no-other-hard-failure
direction). -/
def goodVideoMeta : PyVal → Bool
  | .dict d =>
    (match dlookup d "streams" with
     | none => true
     | some (.list ss) => ss.all goodVideoStream
     | some _ => false) &&
    (match dlookup d "format" with
     | some (.dict f) =>
       (match dlookup f "duration" with
        | some v => goodFloatVal v
        | none => false) &&
       (match dlookup f "tags" with
        | none => true
        | some (.dict t) => videoTags t
        | some _ => false)
     | _ => false)
  | _ => false

/-- Whether the metadata carries `format.duration` (the field whose
absence is claim C6's hard-failure condition). -/
def hasFormatDuration : PyVal → Bool
  | .dict d =>
    match dlookup d "format" with
    | some (.dict f) => (dlookup f "duration").isSome
    | _ => false
  | _ => false

/-- Exact-format check for claim C2: eleven characters matching the
leading pattern, i.e. precisely `HH:MM:SS:FF` with two-digit zero-padded
fields. -/
def isTimecodeFormat (s : String) : Bool :=
  (tcMatch s.data).isSome && s.data.length == 11

/-! ## Basic lemmas -/

deriving instance DecidableEq for Except

theorem pyRound_intCast (n : ℤ) : pyRound (n : ℚ) = n := by
  simp [pyRound, Int.fract_intCast]

theorem abs_sub_pyRound_le (q : ℚ) : |q - pyRound q| ≤ 1 / 2 := by
  have hfr : (q : ℚ) - ⌊q⌋ = Int.fract q := (Int.self_sub_floor q).symm ▸ rfl
  have h0 : 0 ≤ Int.fract q := Int.fract_nonneg q
  have h1 : Int.fract q < 1 := Int.fract_lt_one q
  unfold pyRound
  split_ifs with hc1 hc2 hc3 <;>
    rw [abs_le] <;>
    constructor <;>
    push_cast <;>
    simp only [Int.fract] at * <;>
    linarith

theorem pyRound_nonneg {q : ℚ} (h : 0 ≤ q) : 0 ≤ pyRound q := by
  have hfl : 0 ≤ ⌊q⌋ := Int.floor_nonneg.2 h
  unfold pyRound
  split_ifs <;> omega

theorem pos_of_one_le_pyRound {r : ℚ} (h : 1 ≤ pyRound r) : 0 < r := by
  by_contra hc
  push_neg at hc
  rcases hc.lt_or_eq with hlt | heq
  · have hfl : ¬ 0 ≤ ⌊r⌋ := fun hge => absurd (Int.floor_nonneg.1 hge) (not_le.2 hlt)
    unfold pyRound at h
    split_ifs at h <;> omega
  · have h0 : pyRound (0 : ℚ) = 0 := by simpa using pyRound_intCast 0
    rw [heq] at h
    omega

theorem natDigits_lt_ten {n : ℕ} (h : n < 10) : natDigits n = [digitChar n] := by
  simp [natDigits, natDigitsGo, h]

theorem natDigits_two_digit {n : ℕ} (h10 : 10 ≤ n) (h : n < 100) :
    natDigits n = [digitChar (n / 10), digitChar (n % 10)] := by
  obtain ⟨m, rfl⟩ : ∃ m, n = m + 1 := ⟨n - 1, by omega⟩
  simp only [natDigits, natDigitsGo]
  rw [if_neg (by omega)]
  obtain ⟨k, hk⟩ : ∃ k, m = k + 1 := ⟨m - 1, by omega⟩
  rw [hk]
  simp only [natDigitsGo]
  rw [if_pos (by omega), hk.symm]

theorem mk_append_mk (a b : List Char) : String.mk a ++ String.mk b = String.mk (a ++ b) := rfl

theorem pad2_eq {n : ℤ} (h0 : 0 ≤ n) (h : n < 100) :
    pad2 n = String.mk [digitChar (n.toNat / 10), digitChar (n.toNat % 10)] := by
  have hrepr : intRepr n = String.mk (natDigits n.toNat) := by
    unfold intRepr
    rw [if_neg (by omega)]
  rcases lt_or_le n.toNat 10 with hn | hn
  · have hd : natDigits n.toNat = [digitChar n.toNat] := natDigits_lt_ten hn
    have hdiv : n.toNat / 10 = 0 := by omega
    have hmod : n.toNat % 10 = n.toNat := by omega
    unfold pad2
    rw [hrepr, hd, if_pos (by simp [String.length]), hdiv, hmod]
    rfl
  · have hd : natDigits n.toNat = [digitChar (n.toNat / 10), digitChar (n.toNat % 10)] :=
      natDigits_two_digit hn (by omega)
    unfold pad2
    rw [hrepr, hd, if_neg (by simp [String.length])]

theorem digitChar_isDigit {n : ℕ} (h : n < 10) : (digitChar n).isDigit = true := by
  interval_cases n <;> decide

theorem digitVal_digitChar {n : ℕ} (h : n < 10) : digitVal (digitChar n) = n := by
  interval_cases n <;> decide

theorem tcMatch_digits {a b c d : ℕ} (ha : a < 100) (hb : b < 100) (hc : c < 100)
    (hd : d < 100) (rest : List Char) :
    tcMatch (digitChar (a / 10) :: digitChar (a % 10) :: ':' :: digitChar (b / 10)
      :: digitChar (b % 10) :: ':' :: digitChar (c / 10) :: digitChar (c % 10) :: ':'
      :: digitChar (d / 10) :: digitChar (d % 10) :: rest) = some (a, b, c, d) := by
  simp only [tcMatch, digitChar_isDigit (show a / 10 < 10 by omega),
    digitChar_isDigit (show a % 10 < 10 by omega),
    digitChar_isDigit (show b / 10 < 10 by omega),
    digitChar_isDigit (show b % 10 < 10 by omega),
    digitChar_isDigit (show c / 10 < 10 by omega),
    digitChar_isDigit (show c % 10 < 10 by omega),
    digitChar_isDigit (show d / 10 < 10 by omega),
    digitChar_isDigit (show d % 10 < 10 by omega),
    digitVal_digitChar (show a / 10 < 10 by omega),
    digitVal_digitChar (show a % 10 < 10 by omega),
    digitVal_digitChar (show b / 10 < 10 by omega),
    digitVal_digitChar (show b % 10 < 10 by omega),
    digitVal_digitChar (show c / 10 < 10 by omega),
    digitVal_digitChar (show c % 10 < 10 by omega),
    digitVal_digitChar (show d / 10 < 10 by omega),
    digitVal_digitChar (show d % 10 < 10 by omega),
    beq_self_eq_true, Bool.and_self, Bool.and_true, Bool.true_and, if_true,
    Option.some.injEq, Prod.mk.injEq]
  refine ⟨by omega, by omega, by omega, by omega⟩

theorem tc_fields_bounds {N R : ℤ} (hN : 0 ≤ N) (hR : 1 ≤ R) (hb : N < 360000 * R) :
    0 ≤ (N.fdiv R).fdiv 3600 ∧ (N.fdiv R).fdiv 3600 < 100 ∧
    0 ≤ ((N.fdiv R).fmod 3600).fdiv 60 ∧ ((N.fdiv R).fmod 3600).fdiv 60 < 60 ∧
    0 ≤ (N.fdiv R).fmod 60 ∧ (N.fdiv R).fmod 60 < 60 ∧
    0 ≤ N.fmod R ∧ N.fmod R < R := by
  have hR0 : (0 : ℤ) ≤ R := by omega
  have hRpos : (0 : ℤ) < R := by omega
  have hT : N.fdiv R = N / R := Int.fdiv_eq_ediv N hR0
  have hTnn : 0 ≤ N / R := Int.ediv_nonneg hN hR0
  have hTlt : N / R < 360000 := Int.ediv_lt_of_lt_mul hRpos hb
  have h1 : (N / R).fdiv 3600 = N / R / 3600 := Int.fdiv_eq_ediv _ (by omega)
  have h2 : (N / R).fmod 3600 = N / R % 3600 := Int.fmod_eq_emod _ (by omega)
  have h3 : (N / R % 3600).fdiv 60 = N / R % 3600 / 60 := Int.fdiv_eq_ediv _ (by omega)
  have h4 : (N / R).fmod 60 = N / R % 60 := Int.fmod_eq_emod _ (by omega)
  have h5 : N.fmod R = N % R := Int.fmod_eq_emod _ hR0
  rw [hT, h1, h2, h3, h4, h5]
  refine ⟨by omega, by omega, by omega, by omega, by omega, by omega,
    Int.emod_nonneg N (by omega), Int.emod_lt_of_pos N hRpos⟩

theorem seconds_to_timecode_eq_of_bounds {seconds frame_rate : ℚ}
    (h1 : 1 ≤ pyRound frame_rate) (h2 : pyRound frame_rate ≤ 100) (h0 : 0 ≤ seconds)
    (hb : pyRound (seconds * frame_rate) < 360000 * pyRound frame_rate) :
    seconds_to_timecode seconds frame_rate = .ok (String.mk
      [digitChar ((((pyRound (seconds * frame_rate)).fdiv (pyRound frame_rate)).fdiv 3600).toNat / 10),
       digitChar ((((pyRound (seconds * frame_rate)).fdiv (pyRound frame_rate)).fdiv 3600).toNat % 10),
       ':',
       digitChar (((((pyRound (seconds * frame_rate)).fdiv (pyRound frame_rate)).fmod 3600).fdiv 60).toNat / 10),
       digitChar (((((pyRound (seconds * frame_rate)).fdiv (pyRound frame_rate)).fmod 3600).fdiv 60).toNat % 10),
       ':',
       digitChar ((((pyRound (seconds * frame_rate)).fdiv (pyRound frame_rate)).fmod 60).toNat / 10),
       digitChar ((((pyRound (seconds * frame_rate)).fdiv (pyRound frame_rate)).fmod 60).toNat % 10),
       ':',
       digitChar (((pyRound (seconds * frame_rate)).fmod (pyRound frame_rate)).toNat / 10),
       digitChar (((pyRound (seconds * frame_rate)).fmod (pyRound frame_rate)).toNat % 10)]) := by
  have hNnn : 0 ≤ pyRound (seconds * frame_rate) :=
    pyRound_nonneg (mul_nonneg h0 (le_of_lt (pos_of_one_le_pyRound h1)))
  obtain ⟨b1, b2, b3, b4, b5, b6, b7, b8⟩ := tc_fields_bounds hNnn h1 hb
  simp only [seconds_to_timecode]
  rw [if_neg (show ¬ pyRound frame_rate = 0 from by omega)]
  rw [pad2_eq b1 b2, pad2_eq b3 (by omega), pad2_eq b5 (by omega),
    pad2_eq b7 (by omega)]
  rfl

theorem data_mk (l : List Char) : (String.mk l).data = l := rfl

theorem parse_digits_string {a b c d : ℕ} (ha : a < 100) (hb : b < 100) (hc : c < 100)
    (hd : d < 100) {r : ℚ} (hr : r ≠ 0) :
    timecode_to_seconds (String.mk
      [digitChar (a / 10), digitChar (a % 10), ':', digitChar (b / 10), digitChar (b % 10),
       ':', digitChar (c / 10), digitChar (c % 10), ':', digitChar (d / 10),
       digitChar (d % 10)]) r
      = .ok ((a : ℚ) * 3600 + (b : ℚ) * 60 + (c : ℚ) + (d : ℚ) / r) := by
  simp only [timecode_to_seconds, data_mk, tcMatch_digits ha hb hc hd, if_neg hr]

theorem fields_value {N R : ℤ} (hN : 0 ≤ N) (hR : 1 ≤ R) :
    ((((N.fdiv R).fdiv 3600).toNat : ℚ)) * 3600
      + ((((N.fdiv R).fmod 3600).fdiv 60).toNat : ℚ) * 60
      + (((N.fdiv R).fmod 60).toNat : ℚ)
      + (((N.fmod R).toNat : ℚ)) / (R : ℚ)
      = (N : ℚ) / (R : ℚ) := by
  have hR0 : (0 : ℤ) ≤ R := by omega
  rw [Int.fdiv_eq_ediv N hR0, Int.fmod_eq_emod N hR0, Int.fdiv_eq_ediv _ (by norm_num),
    Int.fmod_eq_emod _ (by norm_num), Int.fdiv_eq_ediv _ (by norm_num),
    Int.fmod_eq_emod _ (by norm_num)]
  have hTnn : 0 ≤ N / R := Int.ediv_nonneg hN hR0
  have hHnn : 0 ≤ N / R / 3600 := Int.ediv_nonneg hTnn (by norm_num)
  have hTmnn : 0 ≤ N / R % 3600 := Int.emod_nonneg _ (by norm_num)
  have hMnn : 0 ≤ N / R % 3600 / 60 := Int.ediv_nonneg hTmnn (by norm_num)
  have hSnn : 0 ≤ N / R % 60 := Int.emod_nonneg _ (by norm_num)
  have hFnn : 0 ≤ N % R := Int.emod_nonneg _ (by omega)
  have cH : ((N / R / 3600).toNat : ℚ) = ((N / R / 3600 : ℤ) : ℚ) := by
    rw [← Int.cast_natCast, Int.toNat_of_nonneg hHnn]
  have cM : ((N / R % 3600 / 60).toNat : ℚ) = ((N / R % 3600 / 60 : ℤ) : ℚ) := by
    rw [← Int.cast_natCast, Int.toNat_of_nonneg hMnn]
  have cS : ((N / R % 60).toNat : ℚ) = ((N / R % 60 : ℤ) : ℚ) := by
    rw [← Int.cast_natCast, Int.toNat_of_nonneg hSnn]
  have cF : ((N % R).toNat : ℚ) = ((N % R : ℤ) : ℚ) := by
    rw [← Int.cast_natCast, Int.toNat_of_nonneg hFnn]
  rw [cH, cM, cS, cF]
  have hsplit : 3600 * (N / R / 3600) + 60 * (N / R % 3600 / 60) + N / R % 60 = N / R := by
    have e1 := Int.ediv_add_emod (N / R) 3600
    have e2 := Int.ediv_add_emod (N / R % 3600) 60
    have e3 : N / R % 3600 % 60 = N / R % 60 := Int.emod_emod_of_dvd _ (by norm_num)
    omega
  have hNsplit : R * (N / R) + N % R = N := Int.ediv_add_emod N R
  have hZ : (3600 * (N / R / 3600) + 60 * (N / R % 3600 / 60) + N / R % 60) * R + N % R
      = N := by
    rw [hsplit, mul_comm]
    exact hNsplit
  have hRne : (R : ℚ) ≠ 0 := Int.cast_ne_zero.2 (by omega)
  field_simp
  have hQ : ((3600 * (N / R / 3600) + 60 * (N / R % 3600 / 60) + N / R % 60) * R
      + N % R : ℤ) = (N : ℤ) := hZ
  have hQ2 := congrArg (fun z : ℤ => (z : ℚ)) hQ
  push_cast at hQ2
  linarith [hQ2]

/-- C1 (amended): for every integer frame rate `r` with `1 ≤ r ≤ 100` (in
particular the tool's rate 24) and every `f ≥ 0` below the 100-hour
field-width limit (`round(f*r) < 360000*r`), the roundtrip
`timecodeToSeconds(secondsToTimecode(f, r), r)` succeeds and reconstructs
`f` to within one frame duration `1/r`. -/
theorem C1_roundtrip_within_one_frame (r : ℤ) (hr1 : 1 ≤ r) (hr2 : r ≤ 100) (f : ℚ)
    (hf : 0 ≤ f) (hb : pyRound (f * (r : ℚ)) < 360000 * r) :
    ∃ s v, seconds_to_timecode f (r : ℚ) = .ok s ∧
      timecode_to_seconds s (r : ℚ) = .ok v ∧ |v - f| ≤ 1 / (r : ℚ) := by
  have hR : pyRound ((r : ℤ) : ℚ) = r := pyRound_intCast r
  have h1 : 1 ≤ pyRound ((r : ℤ) : ℚ) := by rw [hR]; exact hr1
  have h2 : pyRound ((r : ℤ) : ℚ) ≤ 100 := by rw [hR]; exact hr2
  have hb' : pyRound (f * (r : ℚ)) < 360000 * pyRound ((r : ℤ) : ℚ) := by rw [hR]; exact hb
  have hs := seconds_to_timecode_eq_of_bounds h1 h2 hf hb'
  rw [hR] at hs
  have hrpos : (0 : ℚ) < (r : ℚ) := by exact_mod_cast (by omega : (0 : ℤ) < r)
  have hNnn : 0 ≤ pyRound (f * (r : ℚ)) := pyRound_nonneg (mul_nonneg hf hrpos.le)
  obtain ⟨b1, b2, b3, b4, b5, b6, b7, b8⟩ := tc_fields_bounds hNnn hr1 hb
  have hH : ((((pyRound (f * (r : ℚ))).fdiv r).fdiv 3600).toNat) < 100 := by omega
  have hM : (((((pyRound (f * (r : ℚ))).fdiv r).fmod 3600).fdiv 60).toNat) < 100 := by omega
  have hS : ((((pyRound (f * (r : ℚ))).fdiv r).fmod 60).toNat) < 100 := by omega
  have hF : (((pyRound (f * (r : ℚ))).fmod r).toNat) < 100 := by omega
  have hp := parse_digits_string hH hM hS hF (ne_of_gt hrpos)
  rw [fields_value hNnn hr1] at hp
  refine ⟨_, _, hs, hp, ?_⟩
  have habs := abs_sub_pyRound_le (f * (r : ℚ))
  have heq : ((pyRound (f * (r : ℚ)) : ℚ)) / (r : ℚ) - f
      = ((pyRound (f * (r : ℚ)) : ℚ) - f * r) / r := by
    field_simp
    ring
  rw [heq, abs_div, abs_of_pos hrpos]
  calc |(pyRound (f * (r : ℚ)) : ℚ) - f * r| / (r : ℚ)
      ≤ (1 / 2) / (r : ℚ) := by
        apply (div_le_div_iff_of_pos_right hrpos).2
        rw [abs_sub_comm]
        exact habs
    _ ≤ 1 / (r : ℚ) := by
        apply (div_le_div_iff_of_pos_right hrpos).2
        norm_num

/-- C1, counterexample to the claim as stated: at the tool's audio frame
rate `r = 23.976` and `f = 100` seconds, the roundtrip returns
`99 + 2750/2997 ≈ 99.9176`, which is off by `247/2997 ≈ 0.0824` — more
than one frame duration `1/r = 125/2997 ≈ 0.0417`.  (The seconds field of
the timecode advances at `round(r) = 24` frames per second, so the error
grows linearly with the timestamp.) -/
theorem C1_roundtrip_counterexample :
    seconds_to_timecode 100 (2997 / 125) = .ok "00:01:39:22" ∧
    timecode_to_seconds "00:01:39:22" (2997 / 125) = .ok (299453 / 2997) ∧
    1 / (2997 / 125 : ℚ) < |(299453 / 2997 : ℚ) - 100| := by
  refine ⟨?_, ?_, ?_⟩
  · have e1 : pyRound ((100 : ℚ) * (2997 / 125)) = 2398 := by norm_num [pyRound, Int.fract]
    have e2 : pyRound ((2997 : ℚ) / 125) = 24 := by norm_num [pyRound, Int.fract]
    simp only [seconds_to_timecode, e1, e2]
    decide
  · have m : tcMatch ("00:01:39:22".data) = some (0, 1, 39, 22) := by decide
    simp only [timecode_to_seconds, m]
    norm_num
  · rw [abs_sub_comm]
    norm_num [abs_of_pos]

/-- C1, witness: the amended roundtrip theorem applied at `r = 24`,
`f = 3/2` (the roundtrip returns exactly `3/2` there). -/
theorem C1_roundtrip_witness :
    ∃ s v, seconds_to_timecode (3 / 2 : ℚ) ((24 : ℤ) : ℚ) = .ok s ∧
      timecode_to_seconds s ((24 : ℤ) : ℚ) = .ok v ∧ |v - 3 / 2| ≤ 1 / ((24 : ℤ) : ℚ) :=
  C1_roundtrip_within_one_frame 24 (by decide) (by decide) (3 / 2) (by norm_num)
    (by
      have e : pyRound ((3 / 2 : ℚ) * ((24 : ℤ) : ℚ)) = 36 := by
        norm_num [pyRound, Int.fract]
      rw [e]
      decide)

/-- C2 (amended): for frame rates with `1 ≤ round(frameRate) ≤ 100` and
nonnegative seconds below the 100-hour field-width limit, the produced
string matches the exact `HH:MM:SS:FF` format (four two-digit zero-padded
colon-separated fields) with the frames field in `[0, round(frameRate))`. -/
theorem C2_format_invariant (seconds frame_rate : ℚ) (h1 : 1 ≤ pyRound frame_rate)
    (h2 : pyRound frame_rate ≤ 100) (h0 : 0 ≤ seconds)
    (hb : pyRound (seconds * frame_rate) < 360000 * pyRound frame_rate) :
    ∃ s hh mm ss ff, seconds_to_timecode seconds frame_rate = .ok s ∧
      isTimecodeFormat s = true ∧ tcMatch s.data = some (hh, mm, ss, ff) ∧
      (ff : ℤ) < pyRound frame_rate := by
  have hs := seconds_to_timecode_eq_of_bounds h1 h2 h0 hb
  have hNnn : 0 ≤ pyRound (seconds * frame_rate) :=
    pyRound_nonneg (mul_nonneg h0 (le_of_lt (pos_of_one_le_pyRound h1)))
  obtain ⟨b1, b2, b3, b4, b5, b6, b7, b8⟩ := tc_fields_bounds hNnn h1 hb
  have hH : ((((pyRound (seconds * frame_rate)).fdiv (pyRound frame_rate)).fdiv 3600).toNat) < 100 := by
    omega
  have hM : (((((pyRound (seconds * frame_rate)).fdiv (pyRound frame_rate)).fmod 3600).fdiv 60).toNat) < 100 := by
    omega
  have hS : ((((pyRound (seconds * frame_rate)).fdiv (pyRound frame_rate)).fmod 60).toNat) < 100 := by
    omega
  have hF : (((pyRound (seconds * frame_rate)).fmod (pyRound frame_rate)).toNat) < 100 := by
    omega
  have hmatch := tcMatch_digits hH hM hS hF ([] : List Char)
  refine ⟨String.mk _,
    ((((pyRound (seconds * frame_rate)).fdiv (pyRound frame_rate)).fdiv 3600).toNat),
    (((((pyRound (seconds * frame_rate)).fdiv (pyRound frame_rate)).fmod 3600).fdiv 60).toNat),
    ((((pyRound (seconds * frame_rate)).fdiv (pyRound frame_rate)).fmod 60).toNat),
    (((pyRound (seconds * frame_rate)).fmod (pyRound frame_rate)).toNat),
    hs, ?_, ?_, ?_⟩
  · simp [isTimecodeFormat, data_mk, hmatch]
  · rw [data_mk]
    exact hmatch
  · omega

/-- C2, counterexample to the claim as stated (for any input seconds):
at 100 hours the hours field takes three digits, so the exact
`HH:MM:SS:FF` format is violated. -/
theorem C2_format_counterexample :
    seconds_to_timecode 360000 24 = .ok "100:00:00:00" ∧
    isTimecodeFormat "100:00:00:00" = false := by
  constructor
  · have e1 : pyRound ((360000 : ℚ) * 24) = 8640000 := by norm_num [pyRound, Int.fract]
    have e2 : pyRound ((24 : ℚ)) = 24 := by norm_num [pyRound, Int.fract]
    simp only [seconds_to_timecode, e1, e2]
    decide
  · decide

/-- C2, witness: the amended format invariant applied at `seconds = 3/2`,
`frameRate = 24`. -/
theorem C2_format_witness :
    ∃ s hh mm ss ff, seconds_to_timecode (3 / 2 : ℚ) 24 = .ok s ∧
      isTimecodeFormat s = true ∧ tcMatch s.data = some (hh, mm, ss, ff) ∧
      (ff : ℤ) < pyRound 24 :=
  C2_format_invariant (3 / 2) 24
    (by
      have e : pyRound ((24 : ℚ)) = 24 := by norm_num [pyRound, Int.fract]
      omega)
    (by
      have e : pyRound ((24 : ℚ)) = 24 := by norm_num [pyRound, Int.fract]
      omega)
    (by norm_num)
    (by
      have e : pyRound ((3 / 2 : ℚ) * 24) = 36 := by norm_num [pyRound, Int.fract]
      have e2 : pyRound ((24 : ℚ)) = 24 := by norm_num [pyRound, Int.fract]
      omega)

/-- C9 (amended): `secondsToTimecode(0, r)` returns `"00:00:00:00"` for
every `r > 0` whose Python `round` is nonzero (for `0 < r < 1/2` the
source instead raises `ZeroDivisionError`, see the counterexample). -/
theorem C9_zero_is_zero_timecode (r : ℚ) (h0 : 0 < r) (hr : pyRound r ≠ 0) :
    seconds_to_timecode 0 r = .ok "00:00:00:00" := by
  have e : pyRound ((0 : ℚ) * r) = 0 := by
    rw [zero_mul]
    simpa using pyRound_intCast 0
  simp only [seconds_to_timecode, e]
  rw [if_neg hr]
  simp only [Int.zero_fdiv, Int.zero_fmod]
  decide

/-- C9, counterexample to the claim as stated: `r = 3/10 > 0`, yet
`secondsToTimecode(0, 3/10)` raises `ZeroDivisionError` (the source
computes `% round(0.3)`, i.e. `% 0`) rather than returning
`"00:00:00:00"`. -/
theorem C9_zero_counterexample :
    (0 : ℚ) < 3 / 10 ∧
    seconds_to_timecode 0 (3 / 10) = .error .zeroDivisionError := by
  constructor
  · norm_num
  · have e : pyRound ((3 : ℚ) / 10) = 0 := by norm_num [pyRound, Int.fract]
    simp only [seconds_to_timecode, e]
    simp

/-- C9, witness: the amended theorem applied at `r = 24`. -/
theorem C9_zero_witness : seconds_to_timecode 0 24 = .ok "00:00:00:00" :=
  C9_zero_is_zero_timecode 24 (by norm_num)
    (by
      have e : pyRound ((24 : ℚ)) = 24 := by norm_num [pyRound, Int.fract]
      omega)

/-- C3 (amended): `secondsToTimecode` computes exactly the spec §4.1
chain — `totalFrames = round(seconds*frameRate)`, `frames = totalFrames
mod round(frameRate)`, `totalSeconds = totalFrames div round(frameRate)`,
`hours = totalSeconds div 3600`, `minutes = (totalSeconds mod 3600) div
60`, `secs = totalSeconds mod 60`, zero-padded two-digit fields — with
rounding to the nearest integer, ties to even (Python's `round`), not
ties away from zero as the claim states. -/
theorem C3_algorithm_half_even (seconds frame_rate : ℚ) :
    seconds_to_timecode seconds frame_rate = secondsToTimecodeSpecRHE seconds frame_rate := rfl

/-- C3, counterexample to the tie rounding as claimed: at
`seconds = 3/16`, `frameRate = 24` the product is exactly `4.5`; the
source rounds it to the even `4` (`"00:00:00:04"`), while the claimed
ties-away-from-zero chain yields `5` (`"00:00:00:05"`). -/
theorem C3_ties_counterexample :
    seconds_to_timecode (3 / 16) 24 = .ok "00:00:00:04" ∧
    secondsToTimecodeTiesAway (3 / 16) 24 = .ok "00:00:00:05" ∧
    seconds_to_timecode (3 / 16) 24 ≠ secondsToTimecodeTiesAway (3 / 16) 24 := by
  have e1 : pyRound ((3 / 16 : ℚ) * 24) = 4 := by norm_num [pyRound, Int.fract]
  have e2 : pyRound ((24 : ℚ)) = 24 := by norm_num [pyRound, Int.fract]
  have f1 : roundTiesAway ((3 / 16 : ℚ) * 24) = 5 := by norm_num [roundTiesAway, Int.fract]
  have f2 : roundTiesAway ((24 : ℚ)) = 24 := by norm_num [roundTiesAway, Int.fract]
  have ha : seconds_to_timecode (3 / 16) 24 = .ok "00:00:00:04" := by
    simp only [seconds_to_timecode, e1, e2]
    decide
  have hb : secondsToTimecodeTiesAway (3 / 16) 24 = .ok "00:00:00:05" := by
    simp only [secondsToTimecodeTiesAway, f1, f2]
    decide
  refine ⟨ha, hb, ?_⟩
  rw [ha, hb]
  decide

/-- C4: `addTimecodes` always works at the fixed internal frame rate 24 —
it is the composite `secondsToTimecode(timecodeToSeconds(tc1, 24) +
timecodeToSeconds(tc2, 24), 24)` — and on the spec's examples,
`addTimecodes("00:00:10:00", "00:00:05:12") = "00:00:15:12"` and adding
two zero timecodes gives the zero timecode. -/
theorem C4_add_timecodes_fixed_24 :
    (∀ tc1 tc2 s1 s2, timecode_to_seconds tc1 24 = .ok s1 →
        timecode_to_seconds tc2 24 = .ok s2 →
        add_timecodes tc1 tc2 = seconds_to_timecode (s1 + s2) 24) ∧
    add_timecodes "00:00:10:00" "00:00:05:12" = .ok "00:00:15:12" ∧
    add_timecodes "00:00:00:00" "00:00:00:00" = .ok "00:00:00:00" := by
  refine ⟨?_, ?_, ?_⟩
  · intro tc1 tc2 s1 s2 h1 h2
    simp only [add_timecodes, h1, h2]
  · have t1 : timecode_to_seconds "00:00:10:00" 24 = .ok 10 := by
      have m : tcMatch ("00:00:10:00".data) = some (0, 0, 10, 0) := by decide
      simp only [timecode_to_seconds, m]
      norm_num
    have t2 : timecode_to_seconds "00:00:05:12" 24 = .ok (11 / 2) := by
      have m : tcMatch ("00:00:05:12".data) = some (0, 0, 5, 12) := by decide
      simp only [timecode_to_seconds, m]
      norm_num
    simp only [add_timecodes, t1, t2]
    have e1 : pyRound (((10 : ℚ) + 11 / 2) * 24) = 372 := by norm_num [pyRound, Int.fract]
    have e2 : pyRound ((24 : ℚ)) = 24 := by norm_num [pyRound, Int.fract]
    simp only [seconds_to_timecode, e1, e2]
    decide
  · have t0 : timecode_to_seconds "00:00:00:00" 24 = .ok 0 := by
      have m : tcMatch ("00:00:00:00".data) = some (0, 0, 0, 0) := by decide
      simp only [timecode_to_seconds, m]
      norm_num
    simp only [add_timecodes, t0]
    have e1 : pyRound (((0 : ℚ) + 0) * 24) = 0 := by norm_num [pyRound, Int.fract]
    have e2 : pyRound ((24 : ℚ)) = 24 := by norm_num [pyRound, Int.fract]
    simp only [seconds_to_timecode, e1, e2]
    decide

/-- C4, witness: the composite identity applied at the spec's example
pair. -/
theorem C4_add_timecodes_witness :
    add_timecodes "00:00:10:00" "00:00:05:12" = seconds_to_timecode ((10 : ℚ) + 11 / 2) 24 :=
  C4_add_timecodes_fixed_24.1 "00:00:10:00" "00:00:05:12" 10 (11 / 2)
    (by
      have m : tcMatch ("00:00:10:00".data) = some (0, 0, 10, 0) := by decide
      simp only [timecode_to_seconds, m]
      norm_num)
    (by
      have m : tcMatch ("00:00:05:12".data) = some (0, 0, 5, 12) := by decide
      simp only [timecode_to_seconds, m]
      norm_num)

/-- C5: `timecodeToSeconds` is driven by the leading
`\d{2}:\d{2}:\d{2}:\d{2}` match (trailing characters ignored): with no
leading match it returns 0 without raising, and on a match it returns
`hours*3600 + minutes*60 + seconds + frames/frameRate` (the frame rate
being nonzero, as every frame rate in scope is positive). -/
theorem C5_parse_behavior (tc : String) (r : ℚ) :
    (tcMatch tc.data = none → timecode_to_seconds tc r = .ok 0) ∧
    (∀ hh mm ss ff, tcMatch tc.data = some (hh, mm, ss, ff) → r ≠ 0 →
      timecode_to_seconds tc r
        = .ok ((hh : ℚ) * 3600 + (mm : ℚ) * 60 + (ss : ℚ) + (ff : ℚ) / r)) := by
  constructor
  · intro h
    simp only [timecode_to_seconds, h]
  · intro hh mm ss ff h hr
    simp only [timecode_to_seconds, h, if_neg hr]

/-- C5, witness: a non-matching string returns 0; a matching string with
trailing garbage parses its leading eleven characters. -/
theorem C5_parse_witness :
    timecode_to_seconds "garbage" 24 = .ok 0 ∧
    timecode_to_seconds "01:02:03:04xyz" 24
      = .ok ((1 : ℚ) * 3600 + (2 : ℚ) * 60 + (3 : ℚ) + (4 : ℚ) / 24) :=
  ⟨(C5_parse_behavior "garbage" 24).1 (by decide),
   (C5_parse_behavior "01:02:03:04xyz" 24).2 1 2 3 4 (by decide) (by norm_num)⟩

theorem pyInt_ok {v : PyVal} (h : goodIntVal v = true) : ∃ n, pyInt v = .ok n := by
  match v, h with
  | .intV n, _ => exact ⟨n, rfl⟩
  | .str s, h =>
    simp only [goodIntVal] at h
    obtain ⟨n, hn⟩ := Option.isSome_iff_exists.1 h
    exact ⟨n, by simp [pyInt, hn]⟩

theorem pyFloat_ok {v : PyVal} (h : goodFloatVal v = true) : ∃ q, pyFloat v = .ok q := by
  match v, h with
  | .intV n, _ => exact ⟨(n : ℚ), rfl⟩
  | .str s, h =>
    simp only [goodFloatVal] at h
    obtain ⟨q, hq⟩ := Option.isSome_iff_exists.1 h
    exact ⟨q, by simp [pyFloat, hq]⟩

theorem tagLookup_cases {d : List (String × PyVal)} (k : String)
    {P : List (String × PyVal) → Bool}
    (h : (match dlookup d "tags" with
          | none => true
          | some (.dict t) => P t
          | some _ => false) = true) :
    tagLookup (.dict d) k = .ok none ∨
    ∃ t v, dlookup d "tags" = some (.dict t) ∧ P t = true ∧ dlookup t k = some v ∧
      tagLookup (.dict d) k = .ok (some v) := by
  cases hl : dlookup d "tags" with
  | none => exact Or.inl (by simp [tagLookup, pyIn, hl])
  | some tv =>
    rw [hl] at h
    match tv, h with
    | .dict t, h =>
      cases hk : dlookup t k with
      | none => exact Or.inl (by simp [tagLookup, pyIn, pyIndex, hl, hk])
      | some v =>
        exact Or.inr ⟨t, v, rfl, h, hk, by simp [tagLookup, pyIn, pyIndex, hl, hk]⟩

theorem streamsOf_of_good {d : List (String × PyVal)} {P : PyVal → Bool}
    (h : (match dlookup d "streams" with
          | none => true
          | some (.list ss) => ss.all P
          | some _ => false) = true) :
    ∃ ss, streamsOf (.dict d) = .ok ss ∧ ss.all P = true := by
  cases hl : dlookup d "streams" with
  | none => exact ⟨[], by simp [streamsOf, pyGetD, hl], by simp⟩
  | some sv =>
    rw [hl] at h
    match sv, h with
    | .list ss, h => exact ⟨ss, by simp [streamsOf, pyGetD, hl], h⟩

theorem sampleRateLoop_ok {ss : List PyVal} (h : ss.all goodStream = true) :
    ∃ n, sampleRateLoop ss = .ok n := by
  induction ss with
  | nil => exact ⟨48000, rfl⟩
  | cons stream rest ih =>
    rw [List.all_cons, Bool.and_eq_true] at h
    obtain ⟨hs, hrest⟩ := h
    obtain ⟨n, hn⟩ := ih hrest
    match stream, hs with
    | .dict d, hs =>
      simp only [goodStream, Bool.and_eq_true] at hs
      obtain ⟨⟨hs1, hs2⟩, hs3⟩ := hs
      cases hl : dlookup d "sample_rate" with
      | none => exact ⟨n, by simp [sampleRateLoop, pyIn, hl, hn]⟩
      | some v =>
        rw [hl] at hs1
        obtain ⟨m, hm⟩ := pyInt_ok hs1
        exact ⟨m, by simp [sampleRateLoop, pyIn, pyIndex, hl, hm]⟩

theorem timeRefLoop_ok {ss : List PyVal} (h : ss.all goodStream = true) :
    ∃ n, timeRefLoop ss = .ok n := by
  induction ss with
  | nil => exact ⟨0, rfl⟩
  | cons stream rest ih =>
    rw [List.all_cons, Bool.and_eq_true] at h
    obtain ⟨hs, hrest⟩ := h
    obtain ⟨n, hn⟩ := ih hrest
    match stream, hs with
    | .dict d, hs =>
      simp only [goodStream, Bool.and_eq_true] at hs
      obtain ⟨⟨hs1, hs2⟩, hs3⟩ := hs
      rcases tagLookup_cases "time_reference" hs3 with hnone | ⟨t, v, hts, hgt, hkv, hsome⟩
      · exact ⟨n, by simp [timeRefLoop, hnone, hn]⟩
      · have hgv : goodIntVal v = true := by
          simp only [goodTags] at hgt
          rw [hkv] at hgt
          exact hgt
        obtain ⟨m, hm⟩ := pyInt_ok hgv
        exact ⟨m, by simp [timeRefLoop, hsome, hm]⟩

theorem timecodeLoop_ok {ss : List PyVal} (h : ss.all goodStream = true) :
    ∃ v, timecodeLoop ss = .ok v := by
  induction ss with
  | nil => exact ⟨.str "00:00:00:00", rfl⟩
  | cons stream rest ih =>
    rw [List.all_cons, Bool.and_eq_true] at h
    obtain ⟨hs, hrest⟩ := h
    obtain ⟨w, hw⟩ := ih hrest
    match stream, hs with
    | .dict d, hs =>
      simp only [goodStream, Bool.and_eq_true] at hs
      obtain ⟨⟨hs1, hs2⟩, hs3⟩ := hs
      rcases tagLookup_cases "timecode" hs3 with hnone | ⟨t, v, hts, hgt, hkv, hsome⟩
      · exact ⟨w, by simp [timecodeLoop, hnone, hw]⟩
      · exact ⟨v, by simp [timecodeLoop, hsome]⟩

theorem frameRateLoop_ok {ss : List PyVal} (h : ss.all goodStream = true) :
    ∃ q, frameRateLoop ss = .ok q := by
  induction ss with
  | nil => exact ⟨2997 / 125, rfl⟩
  | cons stream rest ih =>
    rw [List.all_cons, Bool.and_eq_true] at h
    obtain ⟨hs, hrest⟩ := h
    obtain ⟨q, hq⟩ := ih hrest
    match stream, hs with
    | .dict d, hs =>
      simp only [goodStream, Bool.and_eq_true] at hs
      obtain ⟨⟨hs1, hs2⟩, hs3⟩ := hs
      cases hl : dlookup d "r_frame_rate" with
      | none => exact ⟨q, by simp [frameRateLoop, pyIn, hl, hq]⟩
      | some v =>
        rw [hl] at hs2
        match v, hs2 with
        | .str s, hs2 =>
          simp only [goodRatioVal] at hs2
          cases hp : parseRatio s with
          | none => rw [hp] at hs2; exact absurd hs2 (by simp)
          | some nd =>
            obtain ⟨n, dd⟩ := nd
            rw [hp] at hs2
            have hd : ¬ dd = 0 := by
              simpa using hs2
            exact ⟨(n : ℚ) / (dd : ℚ),
              by simp [frameRateLoop, pyIn, pyIndex, hl, hp, hd]⟩

/-- C7: the four extractors are total over dict-shaped metadata with keys
missing at any nesting level (and well-formed present leaf values): none
of them raises, and on empty metadata `{}` they return the documented
defaults 48000, 0, 23.976 and `"00:00:00:00"`. -/
theorem C7_extractors_total :
    (∀ m, goodMeta m = true →
      (∃ a, get_sample_rate m = .ok a) ∧ (∃ b, get_time_reference m = .ok b) ∧
      (∃ c, get_frame_rate m = .ok c) ∧ (∃ v, get_timecode m = .ok v)) ∧
    get_sample_rate (.dict []) = .ok 48000 ∧
    get_time_reference (.dict []) = .ok 0 ∧
    get_frame_rate (.dict []) = .ok (2997 / 125) ∧
    get_timecode (.dict []) = .ok (.str "00:00:00:00") := by
  constructor
  · intro m hm
    match m, hm with
    | .dict d, hm =>
      simp only [goodMeta, Bool.and_eq_true] at hm
      obtain ⟨hstr, hfmt⟩ := hm
      obtain ⟨ss, hss, hall⟩ := streamsOf_of_good (P := goodStream) hstr
      refine ⟨?_, ?_, ?_, ?_⟩
      · obtain ⟨a, ha⟩ := sampleRateLoop_ok hall
        exact ⟨a, by simp [get_sample_rate, hss, ha]⟩
      · cases hf : dlookup d "format" with
        | none =>
          obtain ⟨b, hb⟩ := timeRefLoop_ok hall
          exact ⟨b, by simp [get_time_reference, pyIn, hf, hss, hb]⟩
        | some fmt =>
          rw [hf] at hfmt
          cases fmt with
          | str s => simp [goodFormat] at hfmt
          | intV n => simp [goodFormat] at hfmt
          | list l => simp [goodFormat] at hfmt
          | dict f =>
            simp only [goodFormat] at hfmt
            rcases tagLookup_cases "time_reference" hfmt with hnone |
              ⟨t, v, hts, hgt, hkv, hsome⟩
            · obtain ⟨b, hb⟩ := timeRefLoop_ok hall
              exact ⟨b, by simp [get_time_reference, pyIn, pyIndex, hf, hnone, hss, hb]⟩
            · have hgv : goodIntVal v = true := by
                simp only [goodTags] at hgt
                rw [hkv] at hgt
                exact hgt
              obtain ⟨b, hb⟩ := pyInt_ok hgv
              exact ⟨b, by simp [get_time_reference, pyIn, pyIndex, hf, hsome, hb]⟩
      · obtain ⟨c, hcq⟩ := frameRateLoop_ok hall
        exact ⟨c, by simp [get_frame_rate, hss, hcq]⟩
      · cases hf : dlookup d "format" with
        | none =>
          obtain ⟨w, hw⟩ := timecodeLoop_ok hall
          exact ⟨w, by simp [get_timecode, pyIn, hf, hss, hw]⟩
        | some fmt =>
          rw [hf] at hfmt
          cases fmt with
          | str s => simp [goodFormat] at hfmt
          | intV n => simp [goodFormat] at hfmt
          | list l => simp [goodFormat] at hfmt
          | dict f =>
            simp only [goodFormat] at hfmt
            rcases tagLookup_cases "timecode" hfmt with hnone |
              ⟨t, v, hts, hgt, hkv, hsome⟩
            · obtain ⟨w, hw⟩ := timecodeLoop_ok hall
              exact ⟨w, by simp [get_timecode, pyIn, pyIndex, hf, hnone, hss, hw]⟩
            · exact ⟨v, by simp [get_timecode, pyIn, pyIndex, hf, hsome]⟩
  · exact ⟨rfl, rfl, rfl, rfl⟩

/-- C7, witness: the totality statement applied to a concrete metadata
value with missing keys at several levels (a stream with no
`sample_rate`, a `format` with no `tags`). -/
theorem C7_extractors_witness :
    (∃ a, get_sample_rate (.dict [("streams", .list [.dict []]), ("format", .dict [])])
        = .ok a) ∧
    (∃ b, get_time_reference (.dict [("streams", .list [.dict []]), ("format", .dict [])])
        = .ok b) ∧
    (∃ c, get_frame_rate (.dict [("streams", .list [.dict []]), ("format", .dict [])])
        = .ok c) ∧
    (∃ v, get_timecode (.dict [("streams", .list [.dict []]), ("format", .dict [])])
        = .ok v) :=
  C7_extractors_total.1 (.dict [("streams", .list [.dict []]), ("format", .dict [])])
    (by decide)

/-- C10: present-but-malformed leaf values are outside the extractors'
no-raise guarantee: a stream whose `sample_rate` is the non-numeric
string `"abc"` makes `get_sample_rate` raise `ValueError` (Python's
`int("abc")`), and a `format.tags.time_reference` of `"xyz"` makes
`get_time_reference` raise `ValueError` — neither falls back to its
default. -/
theorem C10_malformed_values_raise :
    get_sample_rate (.dict [("streams", .list [.dict [("sample_rate", .str "abc")]])])
      = .error .valueError ∧
    get_time_reference
        (.dict [("format", .dict [("tags", .dict [("time_reference", .str "xyz")])])])
      = .error .valueError := by
  exact ⟨rfl, rfl⟩

theorem seconds_to_timecode_ok_of_round_ne {x r : ℚ} (h : pyRound r ≠ 0) :
    ∃ s, seconds_to_timecode x r = .ok s := by
  simp only [seconds_to_timecode]
  rw [if_neg h]
  exact ⟨_, rfl⟩

theorem string_append_empty (s : String) : s ++ "" = s := by
  cases s with
  | mk l =>
    show String.mk (l ++ []) = String.mk l
    rw [List.append_nil]

/-- C8: for every audio-type input whose extractors succeed (with a
nonzero sample rate, since Python raises on division by a zero rate), the
report block's start timecode is
`secondsToTimecode(timeReference / sampleRate, 23.976)` — the frame rate
hardcoded to 23.976 — and on metadata with `sample_rate = 48000`,
`time_reference = 48000` the start timecode is `"00:00:01:00"`. -/
theorem C8_audio_start_timecode :
    (∀ name m sr tr, get_sample_rate m = .ok sr → get_time_reference m = .ok tr →
      sr ≠ 0 →
      ∃ stc, seconds_to_timecode ((tr : ℚ) / (sr : ℚ)) (2997 / 125) = .ok stc ∧
        process_metadata [(name, m)] "audio"
          = .ok ("Audio Results (" ++ name ++ "):\n" ++ "Time Reference: "
            ++ intRepr tr ++ "\n" ++ "Sample Rate: " ++ intRepr sr
            ++ "\n" ++ "Start Timecode: " ++ stc ++ "\n\n")) ∧
    process_metadata
      [("a.wav", .dict [("streams", .list [.dict [("sample_rate", .str "48000")]]),
        ("format", .dict [("tags", .dict [("time_reference", .str "48000")])])])] "audio"
      = .ok "Audio Results (a.wav):\nTime Reference: 48000\nSample Rate: 48000\nStart Timecode: 00:00:01:00\n\n" := by
  constructor
  · intro name m sr tr h1 h2 h3
    have hr24 : pyRound ((2997 : ℚ) / 125) = 24 := by norm_num [pyRound, Int.fract]
    obtain ⟨stc, hstc⟩ :=
      seconds_to_timecode_ok_of_round_ne (x := (tr : ℚ) / (sr : ℚ))
        (r := 2997 / 125) (by rw [hr24]; decide)
    refine ⟨stc, hstc, ?_⟩
    simp only [process_metadata, process_audio, h1, h2, if_neg h3, hstc,
      beq_self_eq_true, if_true, string_append_empty]
  · have e1 : get_sample_rate
        (.dict [("streams", .list [.dict [("sample_rate", .str "48000")]]),
          ("format", .dict [("tags", .dict [("time_reference", .str "48000")])])])
        = .ok 48000 := by decide
    have e2 : get_time_reference
        (.dict [("streams", .list [.dict [("sample_rate", .str "48000")]]),
          ("format", .dict [("tags", .dict [("time_reference", .str "48000")])])])
        = .ok 48000 := by decide
    have e3 : seconds_to_timecode (((48000 : ℤ) : ℚ) / ((48000 : ℤ) : ℚ)) (2997 / 125)
        = .ok "00:00:01:00" := by
      have ex : (((48000 : ℤ) : ℚ) / ((48000 : ℤ) : ℚ)) = 1 := by norm_num
      rw [ex]
      have p1 : pyRound ((1 : ℚ) * (2997 / 125)) = 24 := by norm_num [pyRound, Int.fract]
      have p2 : pyRound ((2997 : ℚ) / 125) = 24 := by norm_num [pyRound, Int.fract]
      simp only [seconds_to_timecode, p1, p2]
      decide
    simp only [process_metadata, process_audio, e1, e2, e3,
      beq_self_eq_true, if_true, string_append_empty]
    decide

/-- C8, witness: the audio-branch theorem applied at concrete metadata
(`sample_rate = 44100`, `time_reference = 0`). -/
theorem C8_audio_witness :
    ∃ stc, seconds_to_timecode (((0 : ℤ) : ℚ) / ((44100 : ℤ) : ℚ)) (2997 / 125) = .ok stc ∧
      process_metadata
        [("b.wav", .dict [("streams", .list [.dict [("sample_rate", .str "44100")]])])]
        "audio"
        = .ok ("Audio Results (" ++ "b.wav" ++ "):\n" ++ "Time Reference: "
          ++ intRepr 0 ++ "\n" ++ "Sample Rate: " ++ intRepr 44100
          ++ "\n" ++ "Start Timecode: " ++ stc ++ "\n\n") :=
  C8_audio_start_timecode.1 "b.wav"
    (.dict [("streams", .list [.dict [("sample_rate", .str "44100")]])])
    44100 0 (by decide) (by decide) (by decide)

theorem one_le_pyRound_of_half_lt {q : ℚ} (h : 1 / 2 < q) : 1 ≤ pyRound q := by
  rcases le_or_lt 1 ⌊q⌋ with h1 | h1
  · unfold pyRound
    split_ifs <;> omega
  · have h0 : (0 : ℤ) ≤ ⌊q⌋ := Int.floor_nonneg.2 (by linarith)
    have hfl : ⌊q⌋ = 0 := by omega
    have hfr : Int.fract q = q := by
      simp [Int.fract, hfl]
    unfold pyRound
    rw [hfr, hfl]
    rw [if_neg (by linarith), if_pos h]
    decide

theorem frameRateLoop_usable {ss : List PyVal} (h : ss.all goodVideoStream = true) :
    ∃ q, frameRateLoop ss = .ok q ∧ 1 ≤ pyRound q := by
  induction ss with
  | nil =>
    refine ⟨2997 / 125, rfl, ?_⟩
    have e : pyRound ((2997 : ℚ) / 125) = 24 := by norm_num [pyRound, Int.fract]
    omega
  | cons stream rest ih =>
    rw [List.all_cons, Bool.and_eq_true] at h
    obtain ⟨hs, hrest⟩ := h
    obtain ⟨q, hq, hq1⟩ := ih hrest
    match stream, hs with
    | .dict d, hs =>
      simp only [goodVideoStream, Bool.and_eq_true] at hs
      obtain ⟨hs1, hs2⟩ := hs
      cases hl : dlookup d "r_frame_rate" with
      | none => exact ⟨q, by simp [frameRateLoop, pyIn, hl, hq], hq1⟩
      | some v =>
        rw [hl] at hs1
        match v, hs1 with
        | .str s, hs1 =>
          simp only [usableRatioVal] at hs1
          cases hp : parseRatio s with
          | none =>
            rw [hp] at hs1
            exact absurd hs1 (by simp)
          | some nd =>
            obtain ⟨n, dd⟩ := nd
            rw [hp] at hs1
            simp only [Bool.and_eq_true, decide_eq_true_eq] at hs1
            obtain ⟨hd0, hd2⟩ := hs1
            have hdne : ¬ dd = 0 := by omega
            refine ⟨(n : ℚ) / (dd : ℚ),
              by simp [frameRateLoop, pyIn, pyIndex, hl, hp, hdne], ?_⟩
            apply one_le_pyRound_of_half_lt
            rw [div_lt_div_iff₀ (by norm_num) (by exact_mod_cast hd0)]
            linarith [(by exact_mod_cast hd2 : (dd : ℚ) < 2 * (n : ℚ))]

theorem timecodeLoop_str {ss : List PyVal} (h : ss.all goodVideoStream = true) :
    ∃ s, timecodeLoop ss = .ok (.str s) := by
  induction ss with
  | nil => exact ⟨"00:00:00:00", rfl⟩
  | cons stream rest ih =>
    rw [List.all_cons, Bool.and_eq_true] at h
    obtain ⟨hs, hrest⟩ := h
    obtain ⟨w, hw⟩ := ih hrest
    match stream, hs with
    | .dict d, hs =>
      simp only [goodVideoStream, Bool.and_eq_true] at hs
      obtain ⟨hs1, hs2⟩ := hs
      rcases tagLookup_cases "timecode" hs2 with hnone | ⟨t, v, hts, hgt, hkv, hsome⟩
      · exact ⟨w, by simp [timecodeLoop, hnone, hw]⟩
      · simp only [videoTags] at hgt
        rw [hkv] at hgt
        match v, hgt with
        | .str s, _ => exact ⟨s, by simp [timecodeLoop, hsome]⟩

theorem timecode_to_seconds_24_ok (tc : String) : ∃ v, timecode_to_seconds tc 24 = .ok v := by
  unfold timecode_to_seconds
  cases h : tcMatch tc.data with
  | none => exact ⟨0, rfl⟩
  | some g =>
    obtain ⟨a, b, c, d⟩ := g
    dsimp only
    rw [if_neg (by norm_num : ¬ (24 : ℚ) = 0)]
    exact ⟨_, rfl⟩

theorem add_timecodes_ok (tc1 tc2 : String) : ∃ s, add_timecodes tc1 tc2 = .ok s := by
  obtain ⟨v1, h1⟩ := timecode_to_seconds_24_ok tc1
  obtain ⟨v2, h2⟩ := timecode_to_seconds_24_ok tc2
  have hr : pyRound ((24 : ℚ)) = 24 := by norm_num [pyRound, Int.fract]
  obtain ⟨s, hs⟩ :=
    seconds_to_timecode_ok_of_round_ne (x := v1 + v2) (r := 24) (by omega)
  exact ⟨s, by simp [add_timecodes, h1, h2, hs]⟩

theorem process_video_error_of_no_duration (name : String) {m : PyVal}
    (h : hasFormatDuration m = false) : ∃ e, process_video name m = .error e := by
  cases m with
  | str s => exact ⟨.typeError, rfl⟩
  | intV n => exact ⟨.typeError, rfl⟩
  | list l => exact ⟨.typeError, rfl⟩
  | dict d =>
    simp only [hasFormatDuration] at h
    cases hfr : get_frame_rate (.dict d) with
    | error e => exact ⟨e, by simp [process_video, hfr]⟩
    | ok fr =>
      cases htc : get_timecode (.dict d) with
      | error e => exact ⟨e, by simp [process_video, hfr, htc]⟩
      | ok tcv =>
        cases hf : dlookup d "format" with
        | none => exact ⟨.keyError, by simp [process_video, hfr, htc, pyIndex, hf]⟩
        | some fmt =>
          rw [hf] at h
          cases fmt with
          | str s => exact ⟨.typeError, by simp [process_video, hfr, htc, pyIndex, hf]⟩
          | intV n => exact ⟨.typeError, by simp [process_video, hfr, htc, pyIndex, hf]⟩
          | list l => exact ⟨.typeError, by simp [process_video, hfr, htc, pyIndex, hf]⟩
          | dict f =>
            dsimp only at h
            cases hd : dlookup f "duration" with
            | some v =>
              rw [hd] at h
              simp at h
            | none =>
              exact ⟨.keyError, by simp [process_video, hfr, htc, pyIndex, hf, hd]⟩

theorem process_video_ok_of_good (name : String) {m : PyVal}
    (h : goodVideoMeta m = true) : ∃ out, process_video name m = .ok out := by
  match m, h with
  | .dict d, h =>
    simp only [goodVideoMeta, Bool.and_eq_true] at h
    obtain ⟨hstr, hfmt⟩ := h
    cases hf : dlookup d "format" with
    | none =>
      rw [hf] at hfmt
      simp at hfmt
    | some fmt =>
      rw [hf] at hfmt
      cases fmt with
      | str s => simp at hfmt
      | intV n => simp at hfmt
      | list l => simp at hfmt
      | dict f =>
        rw [Bool.and_eq_true] at hfmt
        obtain ⟨hdur, htags⟩ := hfmt
        obtain ⟨ss, hss, hall⟩ := streamsOf_of_good (P := goodVideoStream) hstr
        obtain ⟨fr, hfr, hfr1⟩ := frameRateLoop_usable hall
        have hgfr : get_frame_rate (.dict d) = .ok fr := by simp [get_frame_rate, hss, hfr]
        have htcv : ∃ s, get_timecode (.dict d) = .ok (.str s) := by
          rcases tagLookup_cases "timecode" htags with hnone | ⟨t, v, hts, hgt, hkv, hsome⟩
          · obtain ⟨w, hw⟩ := timecodeLoop_str hall
            exact ⟨w, by simp [get_timecode, pyIn, pyIndex, hf, hnone, hss, hw]⟩
          · simp only [videoTags] at hgt
            rw [hkv] at hgt
            match v, hgt with
            | .str s, _ => exact ⟨s, by simp [get_timecode, pyIn, pyIndex, hf, hsome]⟩
        obtain ⟨stc, hstc⟩ := htcv
        cases hd : dlookup f "duration" with
        | none =>
          rw [hd] at hdur
          simp at hdur
        | some dv =>
          rw [hd] at hdur
          obtain ⟨dur, hdurv⟩ := pyFloat_ok hdur
          obtain ⟨dtc, hdtc⟩ :=
            seconds_to_timecode_ok_of_round_ne (x := dur) (r := fr) (by omega)
          obtain ⟨endtc, hetc⟩ := add_timecodes_ok stc dtc
          exact ⟨"Video Results (" ++ name ++ "):\n" ++ "Start Timecode: " ++ stc ++ "\n"
              ++ "End Timecode: " ++ endtc ++ "\n" ++ "Duration in Timecode Format: "
              ++ dtc ++ "\n\n",
            by simp [process_video, hgfr, hstc, pyIndex, hf, hd, hdurv, hdtc, hetc]⟩

/-- C6: on video input, missing `format.duration` always raises (for every
metadata value whatsoever lacking that field, with no default
substituted), and it is the only hard-failure condition apart from bad
`r_frame_rate` material: on any well-shaped video metadata that does
carry a parseable duration (and usable frame-rate strings) the video
branch completes without raising. -/
theorem C6_missing_duration_hard_failure :
    (∀ name m, hasFormatDuration m = false →
      ∃ e, process_metadata [(name, m)] "video" = .error e) ∧
    (∀ name m, goodVideoMeta m = true →
      ∃ out, process_metadata [(name, m)] "video" = .ok out) := by
  constructor
  · intro name m h
    obtain ⟨e, he⟩ := process_video_error_of_no_duration name h
    exact ⟨e, by simp [process_metadata, he]⟩
  · intro name m h
    obtain ⟨out, ho⟩ := process_video_ok_of_good name h
    exact ⟨out ++ "", by simp [process_metadata, ho]⟩

/-- C6, witness: empty metadata (no `format.duration`) makes the video
branch raise; metadata with `format.duration = "10.0"` processes
cleanly. -/
theorem C6_video_witness :
    (∃ e, process_metadata [("v.mp4", .dict [])] "video" = .error e) ∧
    (∃ out, process_metadata
      [("v.mp4", .dict [("format", .dict [("duration", .str "10.0")])])] "video"
      = .ok out) :=
  ⟨C6_missing_duration_hard_failure.1 "v.mp4" (.dict []) (by decide),
   C6_missing_duration_hard_failure.2 "v.mp4"
     (.dict [("format", .dict [("duration", .str "10.0")])]) (by decide)⟩
